import Mathlib

set_option maxHeartbeats 1000000

/- Shallow embedding of src/plugin/src/Config.cc of txn_box, the configuration
   compiler. External collaborators (the swoc text and format utilities, the
   yaml-cpp node model, the extractor registry and the boolean-name table) are
   modelled as explicit parameters gathered in an Env structure, following the
   interface the spec assigns to them. Arena interning is modelled as the
   identity on strings: interned text is byte-identical and lifetime is out of
   scope for a shallow embedding. -/

/-- Pipeline stages: the Hook enumeration, with the INVALID sentinel. -/
inductive Hook : Type where
  | POST_LOAD
  | TXN_START
  | CREQ
  | PREQ
  | URSP
  | PRSP
  | PRE_REMAP
  | POST_REMAP
  | TXN_CLOSE
  | REMAP
  | MSG
  | INVALID
deriving DecidableEq

/-- Index of a hook, as used to subscript per-hook arrays (IndexFor). -/
def IndexFor : Hook → Nat
  | .POST_LOAD => 0
  | .TXN_START => 1
  | .CREQ => 2
  | .PREQ => 3
  | .URSP => 4
  | .PRSP => 5
  | .PRE_REMAP => 6
  | .POST_REMAP => 7
  | .TXN_CLOSE => 8
  | .REMAP => 9
  | .MSG => 10
  | .INVALID => 11

/-- The HookName lexicon of Config.cc lines 39-51: name-to-hook lookup with the
aliases given there, defaulting to the INVALID sentinel. -/
def hookLookup (s : String) : Hook :=
  if s = "post-load" then .POST_LOAD
  else if s = "txn-open" then .TXN_START
  else if s = "ua-req" ∨ s = "creq" then .CREQ
  else if s = "proxy-req" ∨ s = "preq" then .PREQ
  else if s = "upstream-resp" ∨ s = "ursp" then .URSP
  else if s = "proxy-resp" ∨ s = "prsp" then .PRSP
  else if s = "pre-remap" then .PRE_REMAP
  else if s = "post-remap" then .POST_REMAP
  else if s = "txn-close" then .TXN_CLOSE
  else if s = "remap" then .REMAP
  else if s = "msg" then .MSG
  else .INVALID

/-- The boolean-name table result: a bidirectional lookup with an invalid
sentinel (BoolTag of the plugin). -/
inductive BoolTag : Type where
  | trueT
  | falseT
  | invalid
deriving DecidableEq, BEq

/-- Base value kinds of the type model (ActiveType base types). -/
inductive BaseType : Type where
  | NIL
  | STRING
  | INTEGER
  | BOOLEAN
  | IP_ADDR
  | TUPLE
deriving DecidableEq

/-- ActiveType: a set of base value kinds plus the compile-time-constant flag. -/
structure ActiveType where
  types : List BaseType := []
  cfg_const : Bool := false
deriving DecidableEq

/-- A runtime value instance (Feature). IP addresses are modelled by their
textual form, which is all the compiler observes. -/
inductive Feature : Type where
  | nilF
  | intF (n : Int)
  | boolF (b : Bool)
  | ipF (a : String)
  | strF (s : String)
deriving DecidableEq

/-- Discriminator of an Extractor::Spec: a literal text run versus an ordinary
specifier (the LITERAL_TYPE check of the source). -/
inductive SpecType : Type where
  | literal
  | normal
deriving DecidableEq

/-- Extractor::Spec: one occurrence of a feature reference in source text.
The resolved extractor handle (the exf pointer of the source) is modelled as
the name under which the extractor registry resolved it, none until resolved. -/
structure Spec where
  name : String := ""
  ext : String := ""
  idx : Int := -1
  stype : SpecType := .normal
  exf : Option String := none
deriving DecidableEq

/-- One step of the format-string tokenizer (one iteration of the bwf parser
loop): a possibly empty literal run and an optional specifier, with the
offset the source would report for a diagnostic at this specifier. -/
structure TokItem where
  literal : String := ""
  spec : Option Spec := none
  off : Nat := 0
deriving DecidableEq

/-- The body alternatives of a compiled expression (the variant of Expr):
empty, an embedded constant Feature, a single extractor reference, or a
composite sequence of specs. The list variant is not needed by any claim. -/
inductive Expr0 : Type where
  | noExpr
  | constE (f : Feature)
  | directE (spec : Spec) (t : ActiveType)
  | compositeE (specs : List Spec)
deriving DecidableEq

/-- Modelled from the spec: the Expr node (its header is outside src/). Each
Expr carries the maximum regex-capture index referenced, -1 if none, and a
flag recording whether it references live request context. -/
structure Expr where
  body : Expr0
  max_arg_idx : Int := -1
  ctx_ref_p : Bool := false
deriving DecidableEq

/-- Diagnostic messages. The source builds formatted strings; the embedding
keeps them structured so theorems can inspect what a diagnostic names. -/
inductive Msg : Type where
  | argNotTerminated (name : String)
  | extractorNameRequired
  | extractorNotFound (name : String)
  | invalidSpecSyntax (text : String)
  | specOffsetNote (off : Nat)
  | captureNoActiveRegex (mark : Nat)
  | captureOutOfRange (idx : Int) (mark : Nat) (maxGroup : Int) (line : Nat)
  | internalConsistency
  | noRecognizedTag (mark : Nat)
  | hookNotAllowed (name : String) (hook : Hook) (mark : Nat)
  | whileParsingDirective (mark : Nat)
  | notObjectOrSequence (mark : Nat)
  | whileLoadingDirectives (mark : Nat)
  | topLevelNotWhen (mark : Nat)
  | topLevelNotObject (mark : Nat)
  | configNotDirectiveObject (mark : Nat)
  | keyNotFound (path : String) (seg : String)
  | whileLoadingTopLevel (path : String) (mark : Nat)
  | custom (s : String)
deriving DecidableEq

/-- An error chain (swoc Errata). The empty list is the ok Errata. -/
abbrev Errata := List Msg

/-- Whether a result-or-diagnostic value is a success (Rv is_ok). -/
def rv_ok {α : Type} : Except Errata α → Bool
  | .ok _ => true
  | .error _ => false

/-- An entry of the extractor registry: the validate and extract callbacks and
the has-context-reference query, as the spec specifies the interface. -/
structure ExtractorDef where
  validate : Spec → String → Except Errata ActiveType
  extract : Spec → Feature
  hasCtxRef : Bool

/-- The external collaborators of the compiler, per the spec: the extractor
registry, the boolean-name table, the IP-address parser, the integer parser
(svtoi, returning the value and how many characters it consumed), the
specifier parser of a bare extractor reference, and the format-string
tokenizer of the bwf library. -/
structure Env where
  find : String → Option ExtractorDef
  boolNames : String → BoolTag
  ipParse : String → Option String
  svtoi : String → Int × Nat
  spec_parse : String → Option Spec
  tokenize : String → List TokItem

/-- Arena interning (Config::localize): copies text into compiler-owned
storage and returns a byte-identical view; the identity in this embedding. -/
def localize (s : String) : String := s

/-- Split a character list at the first occurrence of a character, returning
the part before and the part after it (swoc take_prefix_at). -/
def splitAtFirst : List Char → Char → Option (List Char × List Char)
  | [], _ => none
  | x :: xs, c =>
    if x = c then some ([], xs)
    else
      match splitAtFirst xs c with
      | none => none
      | some (a, b) => some (x :: a, b)

/-- parse_arg of Config.cc lines 95-106: strip an optional bracket-delimited
argument from a key. Returns the stripped name and the argument text, or the
bad-bracket diagnostic when an argument opener is present but the text does
not end with the closing bracket. -/
def parse_arg (key : String) : Except Msg (String × String) :=
  match splitAtFirst key.toList '<' with
  | none => .ok (key, "")
  | some (nm, rest) =>
    if rest.getLast? = some '>' then .ok (String.mk nm, String.mk rest.dropLast)
    else .error (.argNotTerminated (String.mk nm))

/-- Config::validate of lines 142-167: resolve and validate one specifier.
A non-negative capture index is always string-typed and needs no registry
call; otherwise the name (after argument stripping) is resolved against the
extractor registry and its validate callback is consulted. Returns the
updated spec together with its ActiveType. -/
def validate (env : Env) (spec : Spec) : Except Errata (Spec × ActiveType) :=
  if spec.name = "" then .error [.extractorNameRequired]
  else if spec.idx < 0 then
    match parse_arg spec.name with
    | .error m => .error [m]
    | .ok (nm, arg) =>
      match env.find nm with
      | some ex =>
        let spec2 : Spec := { spec with name := localize nm, ext := localize spec.ext, exf := some nm }
        match ex.validate spec2 arg with
        | .error e => .error e
        | .ok vt => .ok (spec2, vt)
      | none => .error [.extractorNotFound nm]
  else .ok (spec, { types := [.STRING] })

/-- Modelled from the spec: the Expr constructor taking a constant Feature
(Expr.h is outside src/); constants carry no capture reference. -/
def Expr.ofFeature (f : Feature) : Expr :=
  { body := .constE f }

/-- Modelled from the spec: the Expr constructor taking a validated spec and
its type (Expr.h is outside src/). The expression records the spec's capture
index as its maximum capture reference (-1 when it has none) and whether the
resolved extractor reports a live-context reference. -/
def Expr.ofSpec (env : Env) (s : Spec) (t : ActiveType) : Expr :=
  { body := .directE s t
  , max_arg_idx := s.idx
  , ctx_ref_p := ((s.exf.bind env.find).map ExtractorDef.hasCtxRef).getD false }

/-- The constant evaluation of a compile-time-constant extractor: the
extract callback of the resolved extractor applied to the spec. -/
def extract_feature (env : Env) (s : Spec) : Feature :=
  ((s.exf.bind env.find).map (fun ex => ex.extract s)).getD .nilF

/-- The tail of parse_unquoted_expr, lines 189-204: the text must be a single
extractor specifier; parse it, validate it, and either embed the constant
Feature (for a compile-time-constant extractor) or keep the reference. -/
def resolve_extractor (env : Env) (text : String) : Except Errata Expr :=
  match env.spec_parse text with
  | none => .error [.invalidSpecSyntax text]
  | some spec =>
    match validate env spec with
    | .error e => .error e
    | .ok (spec2, vt) =>
      if vt.cfg_const then .ok (Expr.ofFeature (extract_feature env spec2))
      else .ok (Expr.ofSpec env spec2 vt)

/-- Config::parse_unquoted_expr, lines 169-205: try, in strict order, an
integer literal (accepted only when the numeric parse consumed the whole
text), a boolean name, an IP address, and finally extractor resolution. -/
def parse_unquoted_expr (env : Env) (text : String) : Except Errata Expr :=
  let p := env.svtoi text
  if p.2 = text.length then .ok (Expr.ofFeature (.intF p.1))
  else
    let b := env.boolNames text
    if b ≠ BoolTag.invalid then .ok (Expr.ofFeature (.boolF (b == BoolTag.trueT)))
    else
      match env.ipParse text with
      | some a => .ok (Expr.ofFeature (.ipF a))
      | none => resolve_extractor env text

/-- The literal spec pushed for a literal run of a composite format string. -/
def literal_spec (l : String) : Spec :=
  { stype := .literal, ext := localize l }

/-- The tokenizer loop of parse_composite_expr, lines 217-241: push a literal
spec for each nonempty literal run; push capture specifiers unvalidated;
validate named specifiers, remembering the last type for the singleton case;
a validation failure is annotated with the specifier offset and aborts. -/
def build_specs (env : Env) : List TokItem → List Spec → ActiveType → Except Errata (List Spec × ActiveType)
  | [], acc, vt => .ok (acc, vt)
  | t :: ts, acc, vt =>
    let acc1 := if t.literal ≠ "" then acc ++ [literal_spec t.literal] else acc
    match t.spec with
    | none => build_specs env ts acc1 vt
    | some s =>
      if 0 ≤ s.idx then build_specs env ts (acc1 ++ [s]) vt
      else
        match validate env s with
        | .ok (s2, vt2) => build_specs env ts (acc1 ++ [s2]) vt2
        | .error e => .error (e ++ [.specOffsetNote t.off])

/-- Config::parse_composite_expr, lines 207-265. A single resulting spec is
returned as the bare expression when it is a resolved extractor or a literal
run, and is an internal-consistency error otherwise. With any other number
of specs a composite Expr is produced; the aggregation loop of lines 257-262
iterates the spec vector after it was moved into the composite (line 256),
so it sees an empty vector and the composite keeps the default maximum
capture index -1 and a false context-reference flag. -/
def parse_composite_expr (env : Env) (text : String) : Except Errata Expr :=
  match build_specs env (env.tokenize text) [] {} with
  | .error e => .error e
  | .ok ([s], vt) =>
    match s.exf with
    | some _ => .ok (Expr.ofSpec env s vt)
    | none =>
      if s.stype = SpecType.literal then .ok (Expr.ofFeature (.strF (localize s.ext)))
      else .error [.internalConsistency]
  | .ok (specs, _) => .ok { body := .compositeE specs }

/-- The aggregation the spec describes for a composite: the maximum capture
index over the specs, -1 if none reference a capture. -/
def specs_max_idx (ss : List Spec) : Int :=
  ss.foldl (fun m s => max m s.idx) (-1)

/-- The aggregation the spec describes for the context-reference flag of a
composite: whether any spec's resolved extractor reports a context
reference. -/
def specs_ctx_ref (env : Env) (ss : List Spec) : Bool :=
  ss.any fun s => ((s.exf.bind env.find).map ExtractorDef.hasCtxRef).getD false

/-- The yaml-cpp node model: null, scalar (with its tag, text and source
mark), sequence, and map with ordered entries. Marks are line numbers. -/
inductive YNode : Type where
  | nullN
  | scalarN (tag : String) (text : String) (mark : Nat)
  | seqN (tag : String) (children : List YNode) (mark : Nat)
  | mapN (entries : List (String × YNode)) (mark : Nat)

/-- The source mark of a node. -/
def YNode.mark : YNode → Nat
  | .nullN => 0
  | .scalarN _ _ m => m
  | .seqN _ _ m => m
  | .mapN _ m => m

/-- Whether the node is the null node. -/
def YNode.isNull : YNode → Bool
  | .nullN => true
  | _ => false

/-- Whether the node is a sequence. -/
def YNode.isSeq : YNode → Bool
  | .seqN _ _ _ => true
  | _ => false

/-- Whether the node is a map. -/
def YNode.isMap : YNode → Bool
  | .mapN _ _ => true
  | _ => false

/-- The tag of a node; scalars carry theirs, other shapes report the
default tag. -/
def YNode.tagOf : YNode → String
  | .scalarN t _ _ => t
  | _ => "?"

/-- The scalar text of a node (empty for non-scalars, as yaml-cpp reports). -/
def YNode.scalarText : YNode → String
  | .scalarN _ s _ => s
  | _ => ""

/-- The map entries of a node (empty for non-maps: iterating a non-map node
as a map yields nothing). -/
def YNode.entries : YNode → List (String × YNode)
  | .mapN es _ => es
  | _ => []

/-- Lookup of a key among ordered map entries (the yaml-cpp subscript). -/
def lookupEntries : List (String × YNode) → String → Option YNode
  | [], _ => none
  | (k, v) :: rest, key => if k = key then some v else lookupEntries rest key

/-- A compiled directive handle: the nil directive, an ordered list, or a
type-specific instance produced by a load callback; each carries the
reference to its type's per-config runtime-info record, modelled by the
factory index (the rtti pointer of the source). -/
inductive DirHandle : Type where
  | nilD (rtti : Option Nat)
  | listD (children : List DirHandle) (rtti : Option Nat)
  | leafD (data : String) (rtti : Option Nat)

/-- Attach the per-type runtime-info reference to a directive instance
(the assignment to the rtti field after a successful load). -/
def DirHandle.withRtti : DirHandle → Nat → DirHandle
  | .nilD _, i => .nilD (some i)
  | .listD ds _, i => .listD ds (some i)
  | .leafD s _, i => .leafD s (some i)

/-- A Factory entry: the hook-legality mask, the load callback, the one-time
type-initializer callback, and the sequentially assigned index. The mask is
modelled as the list of hooks whose bit is set. The initializer's effect on
the host is outside the claims; its invocations are counted in the compiler
state. -/
structure FactoryInfo where
  idx : Nat := 0
  hook_mask : List Hook := []
  load_cb : YNode → String → String → YNode → Except Errata DirHandle
  type_init_cb : Unit → Unit := fun _ => ()

/-- The process-wide directive Factory: ordered name-to-entry bindings. -/
abbrev Factory := List (String × FactoryInfo)

/-- Name lookup in the Factory. -/
def Factory.findInfo : Factory → String → Option FactoryInfo
  | [], _ => none
  | (n, i) :: rest, name => if n = name then some i else Factory.findInfo rest name

/-- Position of a name among the Factory bindings, if present. -/
def Factory.indexOfName : Factory → String → Option Nat
  | [], _ => none
  | (n, _) :: rest, name =>
    if n = name then some 0
    else (Factory.indexOfName rest name).map Nat.succ

/-- Config::define of lines 522-529: subscripting the factory map inserts a
default entry when the name is new, and then the entry's index is assigned
the map's size minus one, its mask and callbacks the given ones. For a new
name that is the next sequential index; for an already registered name it
reassigns the entry's index to size minus one. -/
def Config.define (fac : Factory) (name : String) (hooks : List Hook)
    (worker : YNode → String → String → YNode → Except Errata DirHandle)
    (tinit : Unit → Unit) : Factory :=
  match Factory.indexOfName fac name with
  | some j => fac.set j (name, { idx := fac.length - 1, hook_mask := hooks, load_cb := worker, type_init_cb := tinit })
  | none => fac ++ [(name, { idx := fac.length, hook_mask := hooks, load_cb := worker, type_init_cb := tinit })]

/-- The active regex-capture context: group count and defining line of the
most recently compiled pattern. -/
structure ActiveCapture where
  count : Nat := 0
  line : Nat := 0
deriving DecidableEq

/-- The per-configuration compiler instance (the Config object): the factory
snapshot, the per-type usage counters of the runtime-info records, a count
of type-initializer invocations per type, the per-hook root directive lists,
and the mutable parse-time context (active hook, active capture context,
active feature context-reference flag, top-level-directive flag). -/
structure CfgState where
  factory : Factory
  counts : List Nat
  init_calls : List Nat
  roots : List (List DirHandle)
  hook : Hook
  active_capture : ActiveCapture
  active_feature_ref : Bool
  has_top_level : Bool

/-- The Config constructor of lines 109-117 sets up one runtime-info record
per factory entry. Modelled from the spec: the per-type usage counters start
at zero and no initializer has run (Directive.h with the CfgInfo record is
outside src/); the initial hook and capture context are the host-set values
before loading, taken as parameters and defaults. -/
def Config.init (fac : Factory) (h : Hook) : CfgState :=
  { factory := fac
  , counts := List.replicate fac.length 0
  , init_calls := List.replicate fac.length 0
  , roots := List.replicate 12 []
  , hook := h
  , active_capture := {}
  , active_feature_ref := false
  , has_top_level := false }

/-- Modelled from the spec: the designated no-op key skipped by the directive
scanner (Global DO_KEY, defined outside src/). -/
def DO_KEY : String := "do"

/-- Modelled from the spec: the key of the when-directive wrapper
(When KEY, defined outside src/). -/
def WHEN_KEY : String := "when"

/-- The first-use bookkeeping of lines 402-406: when the per-type usage count
is zero the type initializer is invoked (counted in init_calls), then the
usage count is incremented. -/
def use_type (st : CfgState) (i : Nat) : CfgState :=
  if st.counts.getD i 0 = 0 then
    { st with init_calls := st.init_calls.set i (st.init_calls.getD i 0 + 1)
            , counts := st.counts.set i (st.counts.getD i 0 + 1) }
  else
    { st with counts := st.counts.set i (st.counts.getD i 0 + 1) }

/-- The key scan of Config::load_directive, lines 379-417: for each key in
order, strip an optional bracketed argument (a malformed bracket aborts),
skip the designated no-op key, and let the first key found in the factory
determine the type: its hook mask is checked against the current hook, the
first-use initializer and usage counter are updated, the load callback is
invoked, and the produced instance gets the per-type runtime-info
reference. -/
def ld_go (st : CfgState) (node : YNode) (mark : Nat) : List (String × YNode) → CfgState × Except Errata DirHandle
  | [] => (st, .error [.noRecognizedTag mark])
  | (k, v) :: rest =>
    match parse_arg k with
    | .error m => (st, .error [m])
    | .ok (name, arg) =>
      if name = DO_KEY then ld_go st node mark rest
      else
        match Factory.findInfo st.factory name with
        | none => ld_go st node mark rest
        | some info =>
          if st.hook ∈ info.hook_mask then
            let st2 := use_type st info.idx
            match info.load_cb node name arg v with
            | .ok d => (st2, .ok (d.withRtti info.idx))
            | .error e => (st2, .error (e ++ [.whileParsingDirective mark]))
          else (st, .error [.hookNotAllowed name st.hook mark])

/-- Config::load_directive of lines 376-419, the map-node directive loader. -/
def load_directive (st : CfgState) (node : YNode) : CfgState × Except Errata DirHandle :=
  ld_go st node node.mark node.entries

/-- The sequence loop of Config::parse_directive, lines 424-437: load each
child as a directive, short-circuiting with a context-annotated error on the
first failure. -/
def load_dirs (st : CfgState) (mark : Nat) : List YNode → CfgState × Except Errata (List DirHandle)
  | [] => (st, .ok [])
  | c :: cs =>
    match load_directive st c with
    | (st1, .ok d) =>
      match load_dirs st1 mark cs with
      | (st2, .ok ds) => (st2, .ok (d :: ds))
      | (st2, .error e) => (st2, .error e)
    | (st1, .error e) => (st1, .error (e ++ [.whileLoadingDirectives mark]))

/-- Config::parse_directive of lines 421-442: a map loads directly, a
sequence becomes an ordered list directive, null is the no-op directive, and
any other shape is a structural error. -/
def parse_directive (st : CfgState) (node : YNode) : CfgState × Except Errata DirHandle :=
  match node with
  | .mapN entries mark => load_directive st (.mapN entries mark)
  | .seqN _ children mark =>
    match load_dirs st mark children with
    | (st1, .ok ds) => (st1, .ok (.listD ds none))
    | (st1, .error e) => (st1, .error e)
  | .nullN => (st, .ok (.nilD none))
  | .scalarN _ _ mark => (st, .error [.notObjectOrSequence mark])

/-- Append a directive to the root list of a hook. -/
def roots_append (roots : List (List DirHandle)) (h : Hook) (d : DirHandle) : List (List DirHandle) :=
  roots.set (IndexFor h) (roots.getD (IndexFor h) [] ++ [d])

/-- Modelled from the spec: When::load (the when-directive implementation is
outside src/). The wrapper pairs a target hook, read from the value of the
when key, with the directives of its do key, compiled with the target hook
active; the compiler's hook is restored afterwards. -/
def whenLoad (st : CfgState) (node : YNode) (keyVal : YNode) : CfgState × Except Errata (Hook × DirHandle) :=
  let h := hookLookup keyVal.scalarText
  if h = Hook.INVALID then (st, .error [.custom "when: not a valid hook name"])
  else
    let inner := (lookupEntries node.entries DO_KEY).getD .nullN
    match parse_directive { st with hook := h } inner with
    | (st2, .ok d) => ({ st2 with hook := st.hook }, .ok (h, d))
    | (st2, .error e) => ({ st2 with hook := st.hook }, .error e)

/-- Config::load_top_level_directive of lines 444-466: the node must be a map
holding a when key; the inner directive is stolen out of the when wrapper
and appended to the target hook's root list, and a non-post-load load sets
the top-level-directive flag. -/
def load_top_level_directive (st : CfgState) (node : YNode) : CfgState × Errata :=
  match node with
  | .mapN entries mark =>
    match lookupEntries entries WHEN_KEY with
    | some keyVal =>
      match whenLoad st (.mapN entries mark) keyVal with
      | (st2, .ok (h, d)) =>
        let r2 := roots_append st2.roots h d
        let tl := if st2.hook ≠ Hook.POST_LOAD then true else st2.has_top_level
        ({ st2 with roots := r2, has_top_level := tl }, [])
      | (st2, .error e) => (st2, e)
    | none => (st, [.topLevelNotWhen mark])
  | _ => (st, [.topLevelNotObject node.mark])

/-- Config::load_remap_directive of lines 468-483: the node must be a map; it
is parsed as an ordinary directive (a when wrapper is deliberately not
unpacked) and appended to the remap hook's root list. -/
def load_remap_directive (st : CfgState) (node : YNode) : CfgState × Errata :=
  match node with
  | .mapN entries mark =>
    match parse_directive st (.mapN entries mark) with
    | (st2, .ok d) =>
      ({ st2 with roots := roots_append st2.roots Hook.REMAP d, has_top_level := true }, [])
    | (st2, .error e) => (st2, e)
  | _ => (st, [.configNotDirectiveObject node.mark])

/-- Key-path splitting as the take-prefix loop of lines 490-497 performs it:
segments are produced while text remains, so a trailing dot yields no empty
final segment. -/
def segsGo : List Char → List Char → List String
  | cur, [] => [String.mk cur]
  | cur, c :: rest =>
    if c = '.' then String.mk cur :: (if rest.isEmpty then [] else segsGo [] rest)
    else segsGo (cur ++ [c]) rest

/-- The segments of a dotted key path (empty path: no segments). -/
def pathSegs (s : String) : List String :=
  if s = "" then [] else segsGo [] s.toList

/-- The key path actually walked: the reserved root marker means no walk. -/
def path_list (path : String) : List String :=
  if path = "." then [] else pathSegs path

/-- The key-path walk of lines 490-497: descend through map entries, or fail
with the missing segment. -/
def resolve : YNode → List String → Except String YNode
  | n, [] => .ok n
  | n, k :: ks =>
    match lookupEntries n.entries k with
    | some c => resolve c ks
    | none => .error k

/-- The per-hook loader selection of lines 502-506: the remap variant for the
remap hook, the generic top-level loader otherwise. -/
def hook_loader (hook : Hook) : CfgState → YNode → CfgState × Errata :=
  if hook = Hook.REMAP then load_remap_directive else load_top_level_directive

/-- The hook assignment of lines 503-504: loading for the remap hook sets the
compiler's active hook to remap before dispatching on node shape. -/
def pre_state (st : CfgState) (hook : Hook) : CfgState :=
  if hook = Hook.REMAP then { st with hook := Hook.REMAP } else st

/-- The sequence loop of lines 508-511: run the loader on every child in
order, accumulating all resulting erratas (the note calls) instead of
stopping at the first failure. -/
def seq_load (loader : CfgState → YNode → CfgState × Errata) : CfgState → List YNode → CfgState × Errata
  | st, [] => (st, [])
  | st, c :: cs =>
    match loader st c with
    | (st1, e1) =>
      match seq_load loader st1 cs with
      | (st2, es) => (st2, e1 ++ es)

/-- Config::parse_yaml of lines 485-520: resolve the key path, select the
per-hook loader (setting the remap hook when applicable), then dispatch on
the resolved node's shape: a sequence loads every child and annotates any
accumulated errors, a map loads directly, and any other shape does
nothing. -/
def parse_yaml (st : CfgState) (root : YNode) (path : String) (hook : Hook) : CfgState × Errata :=
  match resolve root (path_list path) with
  | .error seg => (st, [.keyNotFound path seg])
  | .ok base =>
    let st0 := pre_state st hook
    match base with
    | .seqN _ children mark =>
      match seq_load (hook_loader hook) st0 children with
      | (st1, es) => (st1, if es = [] then [] else es ++ [.whileLoadingTopLevel path mark])
    | .mapN entries mark => hook_loader hook st0 (.mapN entries mark)
    | _ => (st0, [])

/-- The dispatch of Config::parse_scalar_expr, lines 270-276: null yields the
empty expression; the unquoted tag goes to the unquoted parser; everything
else is parsed as a composite format string. -/
def scalar_inner (env : Env) (node : YNode) : Except Errata Expr :=
  if node.isNull then .ok { body := .noExpr }
  else if node.tagOf = "?" then parse_unquoted_expr env node.scalarText
  else parse_composite_expr env node.scalarText

/-- Config::parse_scalar_expr, lines 267-294: dispatch, then the cross-cutting
capture check of lines 280-287: an expression referencing a capture group
requires a non-zero active capture count and an index strictly below it;
then lines 289-291 propagate the live-context flag into the active feature
context. -/
def parse_scalar_expr (env : Env) (st : CfgState) (node : YNode) : CfgState × Except Errata Expr :=
  if node.isNull then (st, .ok { body := .noExpr })
  else
    match scalar_inner env node with
    | .error e => (st, .error e)
    | .ok expr =>
      if 0 ≤ expr.max_arg_idx then
        if st.active_capture.count = 0 then
          (st, .error [.captureNoActiveRegex node.mark])
        else if (st.active_capture.count : Int) ≤ expr.max_arg_idx then
          (st, .error [.captureOutOfRange expr.max_arg_idx node.mark ((st.active_capture.count : Int) - 1) st.active_capture.line])
        else
          ((if expr.ctx_ref_p then { st with active_feature_ref := true } else st), .ok expr)
      else
        ((if expr.ctx_ref_p then { st with active_feature_ref := true } else st), .ok expr)

/-- Whether parse_arg succeeds on a key. -/
def is_ok_arg (k : String) : Bool :=
  match parse_arg k with
  | .ok _ => true
  | .error _ => false

/-- The first-recognized-key scan the spec describes for a directive map: the
first key, after argument stripping and skipping the no-op key, whose name
the factory recognizes, together with its argument, entry and value node. -/
def first_recognized (fac : Factory) : List (String × YNode) → Option (String × String × FactoryInfo × YNode)
  | [] => none
  | (k, v) :: rest =>
    match parse_arg k with
    | .error _ => none
    | .ok (name, arg) =>
      if name = DO_KEY then first_recognized fac rest
      else
        match Factory.findInfo fac name with
        | some info => some (name, arg, info, v)
        | none => first_recognized fac rest

/-- Whether a key is one the directive scanner passes over: its argument
parses cleanly and its stripped name is the no-op key or is not registered. -/
def pre_skip (fac : Factory) (p : String × YNode) : Bool :=
  match parse_arg p.1 with
  | .error _ => false
  | .ok (name, _) => name == DO_KEY || (Factory.findInfo fac name).isNone

/-- Whether an expression result carries a diagnostic that identifies an
out-of-range capture index. -/
def errata_names_capture_idx : Except Errata Expr → Bool
  | .ok _ => false
  | .error es => es.any fun m =>
      match m with
      | .captureOutOfRange _ _ _ _ => true
      | _ => false

/-- The once-per-instance property: for every type index, the number of
initializer invocations recorded is one when the type has been used in this
instance and zero otherwise. -/
def init_once_inv (st : CfgState) : Prop :=
  ∀ i, st.init_calls.getD i 0 = if 0 < st.counts.getD i 0 then 1 else 0

/-- Well-formedness of the factory snapshot against the runtime-info tables:
every entry's index addresses a slot, and the two tables have equal
length. -/
def counts_wf (st : CfgState) : Prop :=
  (∀ p ∈ st.factory, p.2.idx < st.counts.length) ∧ st.init_calls.length = st.counts.length

/- Concrete material for witnesses and counterexamples. -/

/-- An environment in which every external lookup fails. -/
def envZero : Env :=
  { find := fun _ => none
  , boolNames := fun _ => BoolTag.invalid
  , ipParse := fun _ => none
  , svtoi := fun _ => (0, 0)
  , spec_parse := fun _ => none
  , tokenize := fun _ => [] }

/-- An environment whose integer parse always consumes the whole text. -/
def envInt : Env := { envZero with svtoi := fun s => (42, s.length) }

/-- A capture-group specifier with index 2, as the tokenizer yields it. -/
def capSpec2 : Spec := { name := "2", idx := 2 }

/-- An unresolved named specifier. -/
def specX : Spec := { name := "x" }

/-- The same specifier after registry resolution. -/
def specXr : Spec := { name := "x", exf := some "x" }

/-- The string ActiveType. -/
def vtS : ActiveType := { types := [.STRING] }

/-- An extractor that validates to string type and references live context. -/
def exCtx : ExtractorDef :=
  { validate := fun _ _ => .ok { types := [.STRING] }
  , extract := fun _ => .nilF
  , hasCtxRef := true }

/-- An extractor that validates to string type with no context reference. -/
def exPlain : ExtractorDef :=
  { validate := fun _ _ => .ok { types := [.STRING] }
  , extract := fun _ => .nilF
  , hasCtxRef := false }

/-- An environment tokenizing one composite as a literal run plus a capture
specifier. -/
def envC1 : Env :=
  { envZero with tokenize := fun s =>
      if s = "a{2}" then [{ literal := "a", spec := some capSpec2, off := 1 }] else [] }

/-- An environment with a context-referencing extractor and a two-specifier
composite. -/
def envC1b : Env :=
  { envZero with
    find := fun n => if n = "x" then some exCtx else none
  , tokenize := fun s =>
      if s = "{x}{x}" then [{ spec := some specX }, { spec := some specX, off := 3 }] else [] }

/-- An environment with a plain extractor and a singleton composite. -/
def envC6 : Env :=
  { envZero with
    find := fun n => if n = "x" then some exPlain else none
  , tokenize := fun s => if s = "{x}" then [{ spec := some specX }] else [] }

/-- An environment tokenizing one composite as a lone capture specifier. -/
def envC6b : Env :=
  { envZero with tokenize := fun s => if s = "{2}" then [{ spec := some capSpec2 }] else [] }

/-- An environment whose specifier parse yields a capture-group reference. -/
def env2 : Env :=
  { envZero with spec_parse := fun s =>
      if s = "c0" then some { name := "0", idx := 0 } else none }

/-- A compiler state with one active capture group. -/
def st2 : CfgState := { Config.init [] Hook.CREQ with active_capture := { count := 1, line := 4 } }

/-- A compiler state with no active capture context. -/
def st2z : CfgState := Config.init [] Hook.CREQ

/-- An unquoted scalar node referencing capture group 0. -/
def node2 : YNode := .scalarN "?" "c0" 9

/-- A load callback producing the no-op directive. -/
def noop_load : YNode → String → String → YNode → Except Errata DirHandle :=
  fun _ _ _ _ => .ok (.nilD none)

/-- Two fresh registrations. -/
def facAB : Factory :=
  Config.define (Config.define [] "a" [Hook.CREQ] noop_load (fun _ => ())) "b" [Hook.CREQ] noop_load (fun _ => ())

/-- Re-registration of the first name. -/
def facAB2 : Factory := Config.define facAB "a" [Hook.URSP] noop_load (fun _ => ())

/-- A directive type legal on the client-request hook. -/
def infoK : FactoryInfo :=
  { idx := 0, hook_mask := [Hook.CREQ], load_cb := fun _ _ _ _ => .ok (.leafD "k" none) }

/-- A compiler over a one-entry factory, loading for the client-request hook. -/
def stC3 : CfgState := Config.init [("known", infoK)] Hook.CREQ

/-- Directive map entries with an unrecognized key before the recognized one. -/
def entC3 : List (String × YNode) := [("unrelated", .nullN), ("known", .nullN)]

/-- A directive type for the initializer-once witness. -/
def infoW : FactoryInfo := { idx := 0, hook_mask := [Hook.CREQ], load_cb := noop_load }

/-- A one-entry factory for the initializer-once witness. -/
def facW : Factory := [("w", infoW)]

/-- A sequence of two directives of the same type. -/
def nodeW : YNode := .seqN "" [.mapN [("w", .nullN)] 1, .mapN [("w", .nullN)] 2] 0

/-- A compiler over an empty factory. -/
def stW0 : CfgState := Config.init [] Hook.POST_LOAD

/-- A top-level sequence with two malformed (non-map) directives. -/
def rootC7 : YNode := .seqN "" [.scalarN "" "x" 3, .scalarN "" "y" 5] 9

/-- A compiler whose active hook is the client-request hook. -/
def stC10 : CfgState := Config.init [] Hook.CREQ

/-- C5: parse_unquoted_expr attempts, in strict order, an integer literal
(accepted only when the numeric parse consumes all of the text, yielding a
constant integer Feature), then a boolean name, then an IP address, then
extractor-specifier resolution; text with a non-numeric remainder falls
through past the integer case. -/
theorem C5_order (env : Env) (text : String) :
    ((env.svtoi text).2 = text.length →
      parse_unquoted_expr env text = .ok (Expr.ofFeature (.intF (env.svtoi text).1))) ∧
    ((env.svtoi text).2 ≠ text.length → env.boolNames text ≠ BoolTag.invalid →
      parse_unquoted_expr env text = .ok (Expr.ofFeature (.boolF (env.boolNames text == BoolTag.trueT)))) ∧
    ((env.svtoi text).2 ≠ text.length → env.boolNames text = BoolTag.invalid →
      ∀ a, env.ipParse text = some a →
        parse_unquoted_expr env text = .ok (Expr.ofFeature (.ipF a))) ∧
    ((env.svtoi text).2 ≠ text.length → env.boolNames text = BoolTag.invalid →
      env.ipParse text = none →
      parse_unquoted_expr env text = resolve_extractor env text) := by
  refine ⟨?_, ?_, ?_, ?_⟩
  · intro h1
    simp [parse_unquoted_expr, h1]
  · intro h1 h2
    simp [parse_unquoted_expr, h1, h2]
  · intro h1 h2 a h3
    simp [parse_unquoted_expr, h1, h2, h3]
  · intro h1 h2 h3
    simp [parse_unquoted_expr, h1, h2, h3]

theorem C5_order_witness :
    parse_unquoted_expr envInt "42" = .ok (Expr.ofFeature (.intF 42)) ∧
    parse_unquoted_expr envZero "x" = resolve_extractor envZero "x" :=
  ⟨(C5_order envInt "42").1 rfl, (C5_order envZero "x").2.2.2 (by decide) rfl rfl⟩

/-- C1: the aggregation loop of parse_composite_expr iterates the spec vector
after line 256 moved it into the composite node, so for a composite of two
or more specs the produced Expr always keeps max_arg_idx equal to -1 and a
false context-reference flag, even when the specs reference capture group 2
or a context-referencing extractor, contradicting the claimed aggregation
(computed here by specs_max_idx and specs_ctx_ref). -/
theorem C1_evidence :
    parse_composite_expr envC1 "a{2}" =
      .ok { body := .compositeE [literal_spec "a", capSpec2], max_arg_idx := -1, ctx_ref_p := false } ∧
    specs_max_idx [literal_spec "a", capSpec2] = 2 ∧
    parse_composite_expr envC1b "{x}{x}" =
      .ok { body := .compositeE [specXr, specXr], max_arg_idx := -1, ctx_ref_p := false } ∧
    specs_ctx_ref envC1b [specXr, specXr] = true :=
  ⟨rfl, by decide, rfl, rfl⟩

/-- C8: define assigns a fresh name the next sequential index, but
re-registration under an existing name reassigns that entry's index to the
current size minus one instead of keeping it stable: after registering names
a and b, re-registering a leaves both entries with index 1 (while the mask
overwrite does take effect). -/
theorem C8_evidence :
    ((Factory.findInfo facAB "a").map FactoryInfo.idx = some 0) ∧
    ((Factory.findInfo facAB "b").map FactoryInfo.idx = some 1) ∧
    ((Factory.findInfo facAB2 "a").map FactoryInfo.idx = some 1) ∧
    ((Factory.findInfo facAB2 "b").map FactoryInfo.idx = some 1) ∧
    ((Factory.findInfo facAB2 "a").map FactoryInfo.hook_mask = some [Hook.URSP]) :=
  ⟨rfl, rfl, rfl, rfl, rfl⟩

/-- C6 counterexample: a composite that tokenizes to exactly one specifier
and no literal run does not always yield a bare expression: a lone
capture-group specifier has no resolved extractor and is not a literal, so
the singleton branch reports the internal-consistency error instead. -/
theorem C6_cex : parse_composite_expr envC6b "{2}" = .error [.internalConsistency] := rfl

/-- C6 amended: when the spec build of a composite yields exactly one spec,
parse_composite_expr returns the bare expression when that spec is a
resolved extractor (an extractor-reference Expr) or a literal run (a
constant-string Expr); a lone unresolved capture specifier instead yields
the internal-consistency error; in no case is a one-element composite
produced. -/
theorem C6_amended (env : Env) (text : String) (s : Spec) (vt : ActiveType)
    (h : build_specs env (env.tokenize text) [] {} = .ok ([s], vt)) :
    (s.exf.isSome = true → parse_composite_expr env text = .ok (Expr.ofSpec env s vt)) ∧
    (s.exf = none → s.stype = SpecType.literal →
      parse_composite_expr env text = .ok (Expr.ofFeature (.strF (localize s.ext)))) ∧
    (s.exf = none → s.stype ≠ SpecType.literal →
      parse_composite_expr env text = .error [.internalConsistency]) ∧
    (∀ e, parse_composite_expr env text = .ok e → ∀ ss, e.body ≠ .compositeE ss) := by
  have hp : parse_composite_expr env text =
      (match s.exf with
       | some _ => .ok (Expr.ofSpec env s vt)
       | none =>
         if s.stype = SpecType.literal then .ok (Expr.ofFeature (.strF (localize s.ext)))
         else .error [.internalConsistency]) := by
    simp [parse_composite_expr, h]
  refine ⟨?_, ?_, ?_, ?_⟩
  · intro hx
    cases hy : s.exf with
    | none => rw [hy] at hx; simp at hx
    | some y => rw [hp, hy]
  · intro hx hl
    rw [hp, hx]
    simp [hl]
  · intro hx hl
    rw [hp, hx]
    simp [hl]
  · intro e he ss
    rw [hp] at he
    cases hy : s.exf with
    | some y =>
      rw [hy] at he
      simp at he
      rw [← he]
      simp [Expr.ofSpec]
    | none =>
      rw [hy] at he
      by_cases hl : s.stype = SpecType.literal
      · simp [hl] at he
        rw [← he]
        simp [Expr.ofFeature]
      · simp [hl] at he

theorem C6_amended_witness :
    parse_composite_expr envC6 "{x}" = .ok (Expr.ofSpec envC6 specXr vtS) :=
  (C6_amended envC6 "{x}" specXr vtS rfl).1 rfl

/-- C2 counterexample: with no active capture context, a scalar expression
referencing capture group 0 fails as claimed, but the diagnostic is the
no-active-pattern error, which does not identify any out-of-range index. -/
theorem C2_cex :
    (parse_scalar_expr env2 st2z node2).2 = .error [.captureNoActiveRegex 9] ∧
    errata_names_capture_idx (parse_scalar_expr env2 st2z node2).2 = false :=
  ⟨rfl, rfl⟩

/-- C2 amended: for a scalar expression whose compiled Expr references a
capture group (max_arg_idx at least 0), parse_scalar_expr succeeds iff the
active capture count is non-zero and the index is strictly below it; when
the count is zero the error reports that no pattern is active (naming no
index), and when the index reaches the count the error identifies the
out-of-range index together with the maximum group and defining line. -/
theorem C2_amended (env : Env) (st : CfgState) (node : YNode) (expr : Expr)
    (hinner : scalar_inner env node = .ok expr) (hidx : 0 ≤ expr.max_arg_idx) :
    (rv_ok (parse_scalar_expr env st node).2 = true ↔
      (st.active_capture.count ≠ 0 ∧ expr.max_arg_idx < (st.active_capture.count : Int))) ∧
    (st.active_capture.count = 0 →
      (parse_scalar_expr env st node).2 = .error [.captureNoActiveRegex node.mark]) ∧
    (0 < st.active_capture.count → (st.active_capture.count : Int) ≤ expr.max_arg_idx →
      (parse_scalar_expr env st node).2 =
        .error [.captureOutOfRange expr.max_arg_idx node.mark ((st.active_capture.count : Int) - 1) st.active_capture.line]) := by
  by_cases hn : node.isNull = true
  · rw [scalar_inner, if_pos hn] at hinner
    injection hinner with h
    subst h
    exact absurd hidx (by decide)
  · have hps : parse_scalar_expr env st node =
        (if 0 ≤ expr.max_arg_idx then
          if st.active_capture.count = 0 then (st, .error [.captureNoActiveRegex node.mark])
          else if (st.active_capture.count : Int) ≤ expr.max_arg_idx then
            (st, .error [.captureOutOfRange expr.max_arg_idx node.mark ((st.active_capture.count : Int) - 1) st.active_capture.line])
          else ((if expr.ctx_ref_p then { st with active_feature_ref := true } else st), .ok expr)
        else ((if expr.ctx_ref_p then { st with active_feature_ref := true } else st), .ok expr)) := by
      simp [parse_scalar_expr, hn, hinner]
    rw [hps, if_pos hidx]
    by_cases hc : st.active_capture.count = 0
    · rw [if_pos hc]
      refine ⟨?_, fun _ => rfl, fun hpos _ => absurd hc (Nat.pos_iff_ne_zero.mp hpos)⟩
      constructor
      · intro hok
        simp [rv_ok] at hok
      · rintro ⟨h1, _⟩
        exact absurd hc h1
    · rw [if_neg hc]
      by_cases hge : (st.active_capture.count : Int) ≤ expr.max_arg_idx
      · rw [if_pos hge]
        refine ⟨?_, fun h0 => absurd h0 hc, fun _ _ => rfl⟩
        constructor
        · intro hok
          simp [rv_ok] at hok
        · rintro ⟨_, hlt⟩
          omega
      · rw [if_neg hge]
        refine ⟨?_, fun h0 => absurd h0 hc, fun _ hge2 => absurd hge2 hge⟩
        constructor
        · intro _
          exact ⟨hc, by omega⟩
        · intro _
          rfl

theorem C2_amended_witness :
    rv_ok (parse_scalar_expr env2 st2 node2).2 = true :=
  ((C2_amended env2 st2 node2
      (Expr.ofSpec env2 { name := "0", idx := 0 } { types := [.STRING] }) rfl (by decide)).1).mpr
    (by decide)

/-- C10 counterexample: resolving to a scalar node returns success and
attaches nothing, but when the call is for the remap hook the compiler state
is changed: the active hook is set to remap before the shape dispatch. -/
theorem C10_cex :
    (parse_yaml stC10 (.scalarN "" "t" 0) "." Hook.REMAP).2 = [] ∧
    (parse_yaml stC10 (.scalarN "" "t" 0) "." Hook.REMAP).1.hook = Hook.REMAP ∧
    stC10.hook = Hook.CREQ ∧
    (parse_yaml stC10 (.scalarN "" "t" 0) "." Hook.REMAP).1 ≠ stC10 := by
  refine ⟨rfl, rfl, rfl, ?_⟩
  intro h
  have h2 : Hook.REMAP = Hook.CREQ := congrArg CfgState.hook h
  exact Hook.noConfusion h2

/-- C10 amended: when the key path resolves to a node that is neither a
sequence nor a map, parse_yaml returns success with no error and attaches no
directive; the compiler state is unchanged except that a call for the remap
hook has set the active hook to remap. -/
theorem C10_noop (st : CfgState) (root : YNode) (path : String) (hook : Hook) (node : YNode)
    (hres : resolve root (path_list path) = .ok node)
    (hseq : node.isSeq = false) (hmap : node.isMap = false) :
    parse_yaml st root path hook = (pre_state st hook, []) := by
  unfold parse_yaml
  simp only [hres]
  cases node with
  | nullN => rfl
  | scalarN t s m => rfl
  | seqN t c m => simp [YNode.isSeq] at hseq
  | mapN es m => simp [YNode.isMap] at hmap

theorem C10_noop_witness :
    parse_yaml stW0 (.scalarN "" "t" 0) "." Hook.CREQ = (pre_state stW0 Hook.CREQ, []) :=
  C10_noop stW0 (.scalarN "" "t" 0) "." Hook.CREQ (.scalarN "" "t" 0) rfl rfl rfl

/-- C7: for a top-level sequence the per-hook loader runs on every child and
all resulting erratas are accumulated rather than stopping at the first
failure: with two children whose loads both fail, the result carries both
diagnostics followed by the list annotation. -/
theorem C7_accumulate (st : CfgState) (root : YNode) (path : String) (hook : Hook)
    (tag : String) (c1 c2 : YNode) (mark : Nat) (st1 st2 : CfgState) (e1 e2 : Errata)
    (hres : resolve root (path_list path) = .ok (.seqN tag [c1, c2] mark))
    (h1 : hook_loader hook (pre_state st hook) c1 = (st1, e1))
    (h2 : hook_loader hook st1 c2 = (st2, e2))
    (hne1 : e1 ≠ []) (hne2 : e2 ≠ []) :
    parse_yaml st root path hook = (st2, e1 ++ e2 ++ [.whileLoadingTopLevel path mark]) := by
  unfold parse_yaml
  simp only [hres]
  simp only [seq_load, h1, h2]
  have hne : e1 ++ (e2 ++ []) ≠ [] := by simp [hne1]
  simp [hne, List.append_assoc]
  intro _
  exact hne2

theorem C7_accumulate_witness :
    parse_yaml stW0 rootC7 "." Hook.CREQ =
      (stW0, [.topLevelNotObject 3] ++ [.topLevelNotObject 5] ++ [.whileLoadingTopLevel "." 9]) :=
  C7_accumulate stW0 rootC7 "." Hook.CREQ "" (.scalarN "" "x" 3) (.scalarN "" "y" 5) 9 stW0 stW0
    [.topLevelNotObject 3] [.topLevelNotObject 5] rfl rfl rfl (by decide) (by decide)

/-- The key scan, characterized by the first recognized key: a helper
induction over the entry list underlying load_directive. -/
theorem ld_first (st : CfgState) (node : YNode) (mark : Nat) :
    ∀ (entries : List (String × YNode)), (∀ p ∈ entries, is_ok_arg p.1 = true) →
    (first_recognized st.factory entries = none →
      ld_go st node mark entries = (st, .error [.noRecognizedTag mark])) ∧
    (∀ name arg info v, first_recognized st.factory entries = some (name, arg, info, v) →
      ((st.hook ∈ info.hook_mask →
        ld_go st node mark entries =
          (use_type st info.idx,
            match info.load_cb node name arg v with
            | .ok d => .ok (d.withRtti info.idx)
            | .error e => .error (e ++ [.whileParsingDirective mark]))) ∧
       (st.hook ∉ info.hook_mask →
        ld_go st node mark entries = (st, .error [.hookNotAllowed name st.hook mark])))) := by
  intro entries
  induction entries with
  | nil =>
    intro _
    constructor
    · intro _
      rfl
    · intro name arg info v h
      simp [first_recognized] at h
  | cons p rest ih =>
    obtain ⟨k, v0⟩ := p
    intro hargs
    have hk := hargs (k, v0) (by simp)
    have hrest := ih (fun q hq => hargs q (by simp [hq]))
    cases hpa : parse_arg k with
    | error m =>
      rw [is_ok_arg, hpa] at hk
      simp at hk
    | ok pr =>
      obtain ⟨na, ag⟩ := pr
      by_cases hdo : na = DO_KEY
      · constructor
        · intro hnone
          rw [first_recognized, hpa] at hnone
          simp [hdo] at hnone
          rw [ld_go, hpa]
          simp [hdo]
          exact hrest.1 hnone
        · intro name arg info v hsome
          rw [first_recognized, hpa] at hsome
          simp [hdo] at hsome
          have hr := hrest.2 name arg info v hsome
          rw [ld_go, hpa]
          simp [hdo]
          exact hr
      · cases hfi : Factory.findInfo st.factory na with
        | none =>
          constructor
          · intro hnone
            rw [first_recognized, hpa] at hnone
            simp [hdo, hfi] at hnone
            rw [ld_go, hpa]
            simp [hdo, hfi]
            exact hrest.1 hnone
          · intro name arg info v hsome
            rw [first_recognized, hpa] at hsome
            simp [hdo, hfi] at hsome
            have hr := hrest.2 name arg info v hsome
            rw [ld_go, hpa]
            simp [hdo, hfi]
            exact hr
        | some info0 =>
          constructor
          · intro hnone
            rw [first_recognized, hpa] at hnone
            simp [hdo, hfi] at hnone
          · intro name arg info v hsome
            rw [first_recognized, hpa] at hsome
            simp [hdo, hfi] at hsome
            obtain ⟨hna, hag, hinfo, hv⟩ := hsome
            subst hna
            subst hag
            subst hinfo
            subst hv
            constructor
            · intro hmask
              rw [ld_go, hpa]
              simp [hdo, hfi, hmask]
              cases info0.load_cb node na ag v0 <;> rfl
            · intro hmask
              rw [ld_go, hpa]
              simp [hdo, hfi, hmask]

/-- C3: on a directive map node, the first key in order (after stripping an
optional bracketed argument and skipping the no-op key) whose name the
factory recognizes determines the directive type and its load callback is
dispatched (after the first-use and counter bookkeeping, attaching the
per-type runtime info); when no key is recognized the no-recognized-tag
error results; when the matched type's hook mask excludes the active hook a
stage-mismatch error results instead of loading. Keys are assumed to carry
well-formed arguments; a malformed bracket aborts the scan first (claim
C9). -/
theorem C3_first_key (st : CfgState) (entries : List (String × YNode)) (mark : Nat)
    (hargs : ∀ p ∈ entries, is_ok_arg p.1 = true) :
    (first_recognized st.factory entries = none →
      load_directive st (.mapN entries mark) = (st, .error [.noRecognizedTag mark])) ∧
    (∀ name arg info v, first_recognized st.factory entries = some (name, arg, info, v) →
      ((st.hook ∈ info.hook_mask →
        load_directive st (.mapN entries mark) =
          (use_type st info.idx,
            match info.load_cb (.mapN entries mark) name arg v with
            | .ok d => .ok (d.withRtti info.idx)
            | .error e => .error (e ++ [.whileParsingDirective mark]))) ∧
       (st.hook ∉ info.hook_mask →
        load_directive st (.mapN entries mark) = (st, .error [.hookNotAllowed name st.hook mark])))) := by
  have h := ld_first st (.mapN entries mark) mark entries hargs
  simpa [load_directive, YNode.mark, YNode.entries] using h

theorem C3_first_key_witness :
    load_directive stC3 (.mapN entC3 7) = (use_type stC3 0, .ok (.leafD "k" (some 0))) := by
  have h := ((C3_first_key stC3 entC3 7 (by decide)).2 "known" "" infoK .nullN rfl).1 (by decide)
  simpa [infoK, DirHandle.withRtti] using h

/-- The helper induction for C9: keys the scanner passes over do not change
the outcome, so a malformed-argument key aborts with its diagnostic. -/
theorem ld_bad_arg (st : CfgState) (node : YNode) (mark : Nat) (k : String) (v : YNode)
    (rest : List (String × YNode)) (m : Msg) (hbad : parse_arg k = .error m) :
    ∀ (pre : List (String × YNode)), (∀ p ∈ pre, pre_skip st.factory p = true) →
    ld_go st node mark (pre ++ (k, v) :: rest) = (st, .error [m]) := by
  intro pre
  induction pre with
  | nil =>
    intro _
    rw [List.nil_append, ld_go, hbad]
  | cons p ps ih =>
    obtain ⟨k2, v2⟩ := p
    intro hp
    have h2 := hp (k2, v2) (by simp)
    have hrec := ih (fun q hq => hp q (by simp [hq]))
    cases hpa : parse_arg k2 with
    | error m2 =>
      rw [pre_skip, hpa] at h2
      simp at h2
    | ok pr =>
      obtain ⟨na, ag⟩ := pr
      rw [pre_skip, hpa] at h2
      simp at h2
      rw [List.cons_append, ld_go, hpa]
      rcases h2 with h2 | h2
      · simp [h2, hrec]
      · by_cases hdo : na = DO_KEY
        · simp [hdo, hrec]
        · simp [hdo, h2, hrec]

/-- C9: if a key scanned before the first factory-recognized key carries the
argument opener without proper bracket termination, load_directive returns
that bracketing error and loads nothing (the state is unchanged), even when
the malformed key itself is unrecognized or the no-op key and a recognized
key appears later in the map. -/
theorem C9_arg_abort (st : CfgState) (pre : List (String × YNode)) (k : String) (v : YNode)
    (rest : List (String × YNode)) (mark : Nat) (m : Msg)
    (hpre : ∀ p ∈ pre, pre_skip st.factory p = true)
    (hbad : parse_arg k = .error m) :
    load_directive st (.mapN (pre ++ (k, v) :: rest) mark) = (st, .error [m]) := by
  have h := ld_bad_arg st (.mapN (pre ++ (k, v) :: rest) mark) mark k v rest m hbad pre hpre
  simpa [load_directive, YNode.mark, YNode.entries] using h

theorem C9_arg_abort_witness :
    load_directive stC3
        (.mapN [("unrel", .nullN), ("do", .nullN), ("plugh<oops", .nullN), ("known", .nullN)] 3) =
      (stC3, .error [.argNotTerminated "plugh"]) := by
  have h := C9_arg_abort stC3 [("unrel", .nullN), ("do", .nullN)] "plugh<oops" .nullN
    [("known", .nullN)] 3 (.argNotTerminated "plugh") (by decide) rfl
  simpa using h

/-- Reading back a just-set slot. -/
theorem list_getD_set_self (l : List Nat) (i a d : Nat) (h : i < l.length) :
    (l.set i a).getD i d = a := by
  induction l generalizing i with
  | nil => simp at h
  | cons x xs ih =>
    cases i with
    | zero => rfl
    | succ j =>
      simp only [List.set, List.getD_cons_succ]
      exact ih j (by simpa using h)

/-- Setting one slot leaves the others unchanged. -/
theorem list_getD_set_ne (l : List Nat) (i j a d : Nat) (h : i ≠ j) :
    (l.set i a).getD j d = l.getD j d := by
  induction l generalizing i j with
  | nil => simp [List.set]
  | cons x xs ih =>
    cases i with
    | zero =>
      cases j with
      | zero => exact absurd rfl h
      | succ jj => simp [List.set, List.getD_cons_succ]
    | succ ii =>
      cases j with
      | zero => simp [List.set, List.getD_cons_zero]
      | succ jj =>
        simp only [List.set, List.getD_cons_succ]
        exact ih ii jj (fun hh => h (by rw [hh]))

/-- A freshly replicated table reads as its fill value. -/
theorem list_getD_replicate (n i : Nat) : (List.replicate n 0).getD i 0 = 0 := by
  induction n generalizing i with
  | zero => simp [List.getD]
  | succ m ih =>
    cases i with
    | zero => rfl
    | succ j =>
      simp only [List.replicate, List.getD_cons_succ]
      exact ih j

/-- use_type does not touch the factory. -/
theorem use_type_factory (st : CfgState) (i : Nat) : (use_type st i).factory = st.factory := by
  unfold use_type
  split <;> rfl

/-- use_type preserves the length of the usage-counter table. -/
theorem use_type_counts_len (st : CfgState) (i : Nat) :
    (use_type st i).counts.length = st.counts.length := by
  unfold use_type
  split <;> simp

/-- use_type preserves the length of the initializer table. -/
theorem use_type_calls_len (st : CfgState) (i : Nat) :
    (use_type st i).init_calls.length = st.init_calls.length := by
  unfold use_type
  split <;> simp

/-- use_type preserves well-formedness. -/
theorem use_type_wf (st : CfgState) (i : Nat) (h : counts_wf st) : counts_wf (use_type st i) := by
  obtain ⟨h1, h2⟩ := h
  constructor
  · intro p hp
    rw [use_type_counts_len]
    exact h1 p (by rwa [use_type_factory] at hp)
  · rw [use_type_calls_len, use_type_counts_len]
    exact h2

/-- use_type preserves the once-per-instance property: the initializer fires
exactly on the zero-to-one transition of the usage counter. -/
theorem use_type_inv (st : CfgState) (i : Nat) (hi : i < st.counts.length)
    (hl : st.init_calls.length = st.counts.length) (h : init_once_inv st) :
    init_once_inv (use_type st i) := by
  intro j
  by_cases hc : st.counts.getD i 0 = 0
  · have e1 : use_type st i =
        { st with init_calls := st.init_calls.set i (st.init_calls.getD i 0 + 1)
                , counts := st.counts.set i (st.counts.getD i 0 + 1) } := by
      unfold use_type
      rw [if_pos hc]
    rw [e1]
    by_cases hj : j = i
    · subst hj
      have hi2 : j < st.init_calls.length := by omega
      rw [list_getD_set_self _ _ _ _ hi2, list_getD_set_self _ _ _ _ hi]
      have h0 : st.init_calls.getD j 0 = 0 := by
        have hh := h j
        rw [hc] at hh
        simpa using hh
      rw [h0, hc]
      simp
    · rw [list_getD_set_ne _ _ _ _ _ (fun hh => hj hh.symm),
        list_getD_set_ne _ _ _ _ _ (fun hh => hj hh.symm)]
      exact h j
  · have e1 : use_type st i =
        { st with counts := st.counts.set i (st.counts.getD i 0 + 1) } := by
      unfold use_type
      rw [if_neg hc]
    rw [e1]
    by_cases hj : j = i
    · subst hj
      rw [list_getD_set_self _ _ _ _ hi]
      have hh := h j
      rw [if_pos (Nat.pos_of_ne_zero hc)] at hh
      rw [hh]
      simp
    · rw [list_getD_set_ne _ _ _ _ _ (fun hh => hj hh.symm)]
      exact h j

/-- A successful factory lookup names a binding of the factory. -/
theorem findInfo_mem (fac : Factory) (name : String) (info : FactoryInfo)
    (h : Factory.findInfo fac name = some info) : ∃ n, (n, info) ∈ fac := by
  induction fac with
  | nil => simp [Factory.findInfo] at h
  | cons p rest ih =>
    obtain ⟨n, i⟩ := p
    rw [Factory.findInfo] at h
    by_cases he : n = name
    · rw [if_pos he] at h
      injection h with h
      exact ⟨n, by simp [h]⟩
    · rw [if_neg he] at h
      obtain ⟨m, hm⟩ := ih h
      exact ⟨m, by simp [hm]⟩

/-- The key scan preserves well-formedness and the once-per-instance
property. -/
theorem ld_go_pres (node : YNode) (mark : Nat) :
    ∀ (entries : List (String × YNode)) (st : CfgState), counts_wf st → init_once_inv st →
      counts_wf (ld_go st node mark entries).1 ∧ init_once_inv (ld_go st node mark entries).1 := by
  intro entries
  induction entries with
  | nil =>
    intro st h1 h2
    exact ⟨h1, h2⟩
  | cons p rest ih =>
    obtain ⟨k, v⟩ := p
    intro st h1 h2
    cases hpa : parse_arg k with
    | error m =>
      rw [ld_go, hpa]
      exact ⟨h1, h2⟩
    | ok pr =>
      obtain ⟨na, ag⟩ := pr
      rw [ld_go, hpa]
      by_cases hdo : na = DO_KEY
      · simp only [hdo, if_pos rfl]
        exact ih st h1 h2
      · cases hfi : Factory.findInfo st.factory na with
        | none =>
          simp only [hdo, if_neg hdo, hfi]
          exact ih st h1 h2
        | some info =>
          by_cases hmask : st.hook ∈ info.hook_mask
          · simp only [hdo, if_neg hdo, hfi, if_pos hmask]
            have hii : info.idx < st.counts.length := by
              obtain ⟨n, hn⟩ := findInfo_mem st.factory na info hfi
              exact h1.1 (n, info) hn
            have hwf2 := use_type_wf st info.idx h1
            have hinv2 := use_type_inv st info.idx hii h1.2 h2
            cases info.load_cb node na ag v <;> exact ⟨hwf2, hinv2⟩
          · simp only [hdo, if_neg hdo, hfi, if_neg hmask]
            exact ⟨h1, h2⟩

/-- load_directive preserves well-formedness and the once-per-instance
property. -/
theorem load_directive_pres (st : CfgState) (node : YNode)
    (h1 : counts_wf st) (h2 : init_once_inv st) :
    counts_wf (load_directive st node).1 ∧ init_once_inv (load_directive st node).1 :=
  ld_go_pres node node.mark node.entries st h1 h2

/-- The directive-sequence loader preserves well-formedness and the
once-per-instance property. -/
theorem load_dirs_pres (mark : Nat) :
    ∀ (children : List YNode) (st : CfgState), counts_wf st → init_once_inv st →
      counts_wf (load_dirs st mark children).1 ∧ init_once_inv (load_dirs st mark children).1 := by
  intro children
  induction children with
  | nil =>
    intro st h1 h2
    exact ⟨h1, h2⟩
  | cons c cs ih =>
    intro st h1 h2
    rw [load_dirs]
    split
    · rename_i st1 d heq
      have hld := load_directive_pres st c h1 h2
      rw [heq] at hld
      split
      · rename_i st2 ds heq2
        have hrec := ih st1 hld.1 hld.2
        rw [heq2] at hrec
        exact hrec
      · rename_i st2 e heq2
        have hrec := ih st1 hld.1 hld.2
        rw [heq2] at hrec
        exact hrec
    · rename_i st1 e heq
      have hld := load_directive_pres st c h1 h2
      rw [heq] at hld
      exact hld

/-- parse_directive preserves well-formedness and the once-per-instance
property. -/
theorem parse_directive_pres (st : CfgState) (node : YNode)
    (h1 : counts_wf st) (h2 : init_once_inv st) :
    counts_wf (parse_directive st node).1 ∧ init_once_inv (parse_directive st node).1 := by
  cases node with
  | nullN => exact ⟨h1, h2⟩
  | scalarN t s m => exact ⟨h1, h2⟩
  | mapN es m => exact load_directive_pres st (.mapN es m) h1 h2
  | seqN t cs m =>
    rw [parse_directive]
    have h := load_dirs_pres m cs st h1 h2
    split
    · rename_i st1 ds heq
      rw [heq] at h
      exact h
    · rename_i st1 e heq
      rw [heq] at h
      exact h

/-- C4: starting a fresh compiler instance (its per-type usage counters all
zero, as the constructor sets them up), loading any directive tree invokes
each registered type's one-time initializer exactly once if the type was
used (however many directives of the type occur) and not at all otherwise;
because this holds for every fresh instance, a second independent instance
invokes it again exactly once. Requires each factory index to address a
runtime-info slot, as registration guarantees. -/
theorem C4_once (fac : Factory) (h : Hook) (node : YNode)
    (hwf : ∀ p ∈ fac, p.2.idx < fac.length) :
    ∀ i, (parse_directive (Config.init fac h) node).1.init_calls.getD i 0 =
      if 0 < (parse_directive (Config.init fac h) node).1.counts.getD i 0 then 1 else 0 := by
  have hwf0 : counts_wf (Config.init fac h) := by
    constructor
    · intro p hp
      simpa [Config.init] using hwf p hp
    · simp [Config.init]
  have hinv0 : init_once_inv (Config.init fac h) := by
    intro i
    simp [Config.init, list_getD_replicate]
  exact (parse_directive_pres (Config.init fac h) node hwf0 hinv0).2

theorem C4_once_witness :
    (parse_directive (Config.init facW Hook.CREQ) nodeW).1.counts.getD 0 0 = 2 ∧
    (parse_directive (Config.init facW Hook.CREQ) nodeW).1.init_calls.getD 0 0 =
      (if 0 < (parse_directive (Config.init facW Hook.CREQ) nodeW).1.counts.getD 0 0 then 1 else 0) :=
  ⟨by decide, C4_once facW Hook.CREQ nodeW (by decide) 0⟩
